import Mathlib

/-!
Shallow embedding of the running_page extraction-and-aggregation pipeline
(scripts/parse_fit.py): the activity extractor, the nearest-city geocoder
with its memoizing cache, and the daily / city aggregations, together with
theorems settling the specification claims C1 to C10 about them.

Python numbers (ints and floats) are modelled as exact rationals; the
transcendental haversine distance is modelled over the reals.  Datetime
values are modelled as rational epoch seconds, and the external standard
library string formatting of datetimes is modelled by uninterpreted but
concrete encodings, since no claim depends on the rendered text.
-/

/-- A decoded FIT field value, as fitdecode hands it to the script.  `num`
covers every value Python `float()` accepts (ints and floats), `str` a
non-numeric string, `time` a datetime (as epoch seconds), and `nonnum` any
other object on which `float()` raises. -/
inductive PyVal where
  | num (q : ℚ)
  | str (s : String)
  | time (t : ℚ)
  | nonnum
deriving DecidableEq

/-- The field-name → value mapping one FitDataMessage yields
(get_field_map in the source). -/
def FieldMap : Type := List (String × PyVal)

instance : DecidableEq FieldMap := inferInstanceAs (DecidableEq (List (String × PyVal)))

/-- dict.get(key): the value stored under the key, or None. -/
def FieldMap.get (m : FieldMap) (k : String) : Option PyVal :=
  match m with
  | [] => none
  | (k', v) :: rest => if k' = k then some v else FieldMap.get rest k

/-- Python truthiness of a field value (zero and the empty string are falsy;
datetimes and other objects are truthy). -/
def truthy : PyVal → Bool
  | .num q => q ≠ 0
  | .str s => s ≠ ""
  | .time _ => true
  | .nonnum => true

/-- Python `a or b` on two optional field values. -/
def pyOr (a b : Option PyVal) : Option PyVal :=
  match a with
  | some v => if truthy v then some v else b
  | none => b

/-- Python `a or b` where `a` is an optional float: `a` when present and
nonzero, else `b` (0.0 is falsy). -/
def pyOrQ (a b : Option ℚ) : Option ℚ :=
  match a with
  | some q => if q = 0 then b else some q
  | none => b

/-- Python `a or b` where `a` is an optional string and `b` a string:
`a` when present and non-empty, else `b` ("" is falsy). -/
def strOr (a : Option String) (b : String) : String :=
  match a with
  | some s => if s = "" then b else s
  | none => b

/-- Python float(v): the numeric value, or None when the conversion raises
(TypeError / ValueError) — the script's lenient numeric coercion. -/
def toFloat : PyVal → Option ℚ
  | .num q => some q
  | _ => none

/-- Python str(v): only string values matter here (the sport name); other
values render to text that never equals a sport name. -/
def pyStr : PyVal → String
  | .str s => s
  | .num q => "num:" ++ toString q.num
  | .time _ => "datetime"
  | .nonnum => "object"

/-- Python s.lower(), modelled structurally over the character list. -/
def pyLower (s : String) : String := ⟨s.data.map Char.toLower⟩

/-- A datetime field value as epoch seconds; `float()`-style leniency for
non-datetime values. -/
def asTime : PyVal → Option ℚ
  | .time t => some t
  | _ => none

/-- ensure_utc: attaching or converting a timezone does not change the
instant, so on epoch seconds it is the identity (None passes through). -/
def ensure_utc (dt : Option ℚ) : Option ℚ := dt

/-- semicircles_to_deg from the source: value * 180 / 2^31. -/
def semicircles_to_deg (v : ℚ) : ℚ := v * 180 / 2 ^ 31

/-- normalize_lat_lon from the source: None-propagating, lenient float
conversion, then the abs(v) > 180 semicircle heuristic. -/
def normalize_lat_lon (value : Option PyVal) : Option ℚ :=
  match value with
  | none => none
  | some w =>
    match toFloat w with
    | none => none
    | some v => if |v| > 180 then some (semicircles_to_deg v) else some v

/-- A city record of the GeoNames reference list: name, country and admin
region may be missing; lat and lon are required (the script indexes them
directly). -/
structure City where
  city : Option String
  country : Option String
  admin1 : Option String
  lat : ℚ
  lon : ℚ
deriving DecidableEq

/-- math.atan2(y, x), via the complex argument. -/
noncomputable def atan2 (y x : ℝ) : ℝ := Complex.arg ⟨x, y⟩

/-- math.radians: degrees to radians. -/
noncomputable def radians (x : ℚ) : ℝ := (x : ℝ) * Real.pi / 180

/-- haversine_km from the source: great-circle distance on a sphere of
radius 6371 km. -/
noncomputable def haversine_km (lat1 lon1 lat2 lon2 : ℚ) : ℝ :=
  let r : ℝ := 6371
  let phi1 := radians lat1
  let phi2 := radians lat2
  let d_phi := radians (lat2 - lat1)
  let d_lambda := radians (lon2 - lon1)
  let a := Real.sin (d_phi / 2) ^ 2 +
    Real.cos phi1 * Real.cos phi2 * Real.sin (d_lambda / 2) ^ 2
  let c := 2 * atan2 (Real.sqrt a) (Real.sqrt (1 - a))
  r * c

open Classical in
/-- The loop of find_nearest_city: a linear scan holding the best city and
best distance seen so far, updating on a strict improvement (so the first
city attaining the minimum wins). -/
noncomputable def nearestScan (lat lon : ℚ) :
    List City → Option City → Option ℝ → Option City × Option ℝ
  | [], best, best_km => (best, best_km)
  | c :: rest, best, best_km =>
    let d_km := haversine_km lat lon c.lat c.lon
    match best_km with
    | none => nearestScan lat lon rest (some c) (some d_km)
    | some b =>
      if d_km < b then nearestScan lat lon rest (some c) (some d_km)
      else nearestScan lat lon rest best (some b)

open Classical in
/-- find_nearest_city from the source: scan all cities, then reject a best
match that lies beyond max_km (the distance is still reported). -/
noncomputable def find_nearest_city (lat lon : ℚ) (cities : List City)
    (max_km : Option ℚ) : Option City × Option ℝ :=
  match nearestScan lat lon cities none none with
  | (none, _) => (none, none)
  | (some best, best_km) =>
    match max_km, best_km with
    | some m, some bk => if bk > (m : ℝ) then (none, some bk) else (some best, some bk)
    | _, bk => (some best, bk)

/-- round(x, 3): rounding to 3 decimal places.  Python rounds the nearest
binary float half to even; ties at the third decimal are immaterial here, so
rounding is modelled exactly on rationals. -/
def round3 (x : ℚ) : ℚ := (round (x * 1000) : ℚ) / 1000

/-- The geocoder's memoizing cache, keyed by rounded coordinates
(a Python dict, modelled as an association list with newest entry first). -/
def GeoCache : Type := List ((ℚ × ℚ) × (Option City × Option ℝ))

/-- Membership and retrieval in the cache dict (key in cache, cache[key]). -/
def cacheFind (cache : GeoCache) (k : ℚ × ℚ) : Option (Option City × Option ℝ) :=
  match cache with
  | [] => none
  | (k', v) :: rest => if k' = k then some v else cacheFind rest k

/-- city_lookup from the source.  The Python function mutates the caller's
cache dict; here the updated cache is returned alongside the result. -/
noncomputable def city_lookup (lat lon : Option ℚ) (cities : List City)
    (cache : GeoCache) (max_km : Option ℚ) :
    (Option City × Option ℝ) × GeoCache :=
  match lat, lon with
  | some la, some lo =>
    let key := (round3 la, round3 lo)
    match cacheFind cache key with
    | some r => (r, cache)
    | none =>
      let result := find_nearest_city la lo cities max_km
      (result, (key, result) :: cache)
  | _, _ => ((none, none), cache)

/-- The state of the single pass over the record messages in
parse_fit_file. -/
structure ScanState where
  first_ts : Option ℚ := none
  last_ts : Option ℚ := none
  last_distance : Option ℚ := none
  hr_sum : ℚ := 0
  hr_count : ℕ := 0
  first_lat : Option ℚ := none
  first_lon : Option ℚ := none
deriving DecidableEq

/-- The timestamp block of the record loop: track the first and last valid
timestamp. -/
def scanTs (s : ScanState) (record : FieldMap) : ScanState :=
  match ensure_utc ((FieldMap.get record "timestamp").bind asTime) with
  | some ts =>
    { s with
      first_ts := match s.first_ts with | none => some ts | some f => some f,
      last_ts := some ts }
  | none => s

/-- The distance block of the record loop: remember the last cumulative
distance that converts to a number. -/
def scanDist (s : ScanState) (record : FieldMap) : ScanState :=
  match FieldMap.get record "distance" with
  | some v =>
    match toFloat v with
    | some q => { s with last_distance := some q }
    | none => s
  | none => s

/-- The heart-rate block of the record loop: accumulate the sum and count
of the samples that convert to a number. -/
def scanHr (s : ScanState) (record : FieldMap) : ScanState :=
  match FieldMap.get record "heart_rate" with
  | some v =>
    match toFloat v with
    | some h => { s with hr_sum := s.hr_sum + h, hr_count := s.hr_count + 1 }
    | none => s
  | none => s

/-- The position block of the record loop: record the first valid
(lat, lon) pair. -/
def scanPos (s : ScanState) (record : FieldMap) : ScanState :=
  if s.first_lat = none ∨ s.first_lon = none then
    match normalize_lat_lon (FieldMap.get record "position_lat"),
          normalize_lat_lon (FieldMap.get record "position_long") with
    | some lat, some lon => { s with first_lat := some lat, first_lon := some lon }
    | some _, none => s
    | none, some _ => s
    | none, none => s
  else s

/-- One iteration of the record loop in parse_fit_file: track first/last
timestamp, the last numeric cumulative distance, the running heart-rate sum
and count, and the first valid (lat, lon) pair. -/
def scanRecord (s : ScanState) (record : FieldMap) : ScanState :=
  scanPos (scanHr (scanDist (scanTs s record) record) record) record

/-- The full pass over the records. -/
def scanRecords (records : List FieldMap) : ScanState :=
  records.foldl scanRecord {}

/-- The valid (lat, lon) pair a record offers, if any: both coordinates
present and numerically normalizable. -/
def recordPair (r : FieldMap) : Option (ℚ × ℚ) :=
  match normalize_lat_lon (FieldMap.get r "position_lat"),
        normalize_lat_lon (FieldMap.get r "position_long") with
  | some lat, some lon => some (lat, lon)
  | some _, none => none
  | none, some _ => none
  | none, none => none

/-- The first valid (lat, lon) pair among the records, in record order. -/
def firstValidPair (records : List FieldMap) : Option (ℚ × ℚ) :=
  records.findSome? recordPair

/-- The last numeric cumulative distance among the records: the value of
the last record whose distance field is present and converts to a number. -/
def lastRecordDistance (records : List FieldMap) : Option ℚ :=
  records.reverse.findSome? fun r => (FieldMap.get r "distance").bind toFloat

/-- int(x) in Python truncates toward zero. -/
def int_trunc (q : ℚ) : ℤ := if q < 0 then -⌊-q⌋ else ⌊q⌋

/-- ISO-8601 UTC rendering of a datetime.  Performed by the external
datetime library; modelled as an uninterpreted concrete encoding of the
epoch value (no claim inspects the text). -/
def iso_utc (t : ℚ) : String := "utc:" ++ toString t.num ++ "/" ++ toString t.den ++ "Z"

/-- ISO-8601 local rendering of a datetime (external library; modelled as
an uninterpreted concrete encoding). -/
def iso_local (t : ℚ) : String := "local:" ++ toString t.num ++ "/" ++ toString t.den

/-- The local calendar date of a datetime (external library; modelled as an
uninterpreted concrete encoding of the day number). -/
def local_date (t : ℚ) : String := "date:" ++ toString ⌊t / 86400⌋

/-- An extracted activity summary, the dict parse_fit_file returns. -/
structure Activity where
  id : String
  sourceFile : String
  sport : String
  startTime : String
  startTimeUtc : Option String
  date : String
  distanceM : Option ℚ
  durationS : Option ℚ
  paceSecPerKm : Option ℚ
  avgHr : Option ℚ
  lat : Option ℚ
  lon : Option ℚ
  city : String
  country : Option String
  admin1 : Option String
deriving DecidableEq

/-- The sport string of the session:
str(session.get("sport")).lower(), or "unknown" when the field is absent. -/
def extract_sport (session : FieldMap) : String :=
  match FieldMap.get session "sport" with
  | some v => pyLower (pyStr v)
  | none => "unknown"

/-- The start time of the session:
ensure_utc(session.get("start_time") or session.get("timestamp")). -/
def extract_start_time (session : FieldMap) : Option ℚ :=
  ensure_utc ((pyOr (FieldMap.get session "start_time")
    (FieldMap.get session "timestamp")).bind asTime)

/-- distance_m after the coercion block: session.total_distance when the
field is present (None when it does not convert), else the last cumulative
record distance gathered by the pass. -/
def extract_distance_m (session : FieldMap) (s : ScanState) : Option ℚ :=
  match FieldMap.get session "total_distance" with
  | some v => toFloat v
  | none => s.last_distance

/-- duration_s after the coercion block: session.total_timer_time when the
field is present (None when it does not convert), else
last_ts - first_ts when both timestamps were seen. -/
def extract_duration_s (session : FieldMap) (s : ScanState) : Option ℚ :=
  match FieldMap.get session "total_timer_time" with
  | some v => toFloat v
  | none =>
    match s.first_ts, s.last_ts with
    | some f, some l => some (l - f)
    | some _, none => none
    | none, some _ => none
    | none, none => none

/-- avg_hr after the coercion block: session.avg_heart_rate when present
(None when it does not convert), else the running mean of the heart-rate
samples when at least one was seen. -/
def extract_avg_hr (session : FieldMap) (s : ScanState) : Option ℚ :=
  match FieldMap.get session "avg_heart_rate" with
  | some v => toFloat v
  | none => if s.hr_count > 0 then some (s.hr_sum / (s.hr_count : ℚ)) else none

/-- start_lat: the normalized session start latitude, falling back (by
Python truthiness) to the first record latitude of the pass. -/
def extract_start_lat (session : FieldMap) (s : ScanState) : Option ℚ :=
  pyOrQ (normalize_lat_lon (FieldMap.get session "start_position_lat")) s.first_lat

/-- start_lon: as extract_start_lat, on the longitude axis. -/
def extract_start_lon (session : FieldMap) (s : ScanState) : Option ℚ :=
  pyOrQ (normalize_lat_lon (FieldMap.get session "start_position_long")) s.first_lon

/-- pace_sec_per_km: duration_s / (distance_m / 1000) when
distance_m and duration_s and distance_m > 0 (Python truthiness). -/
def extract_pace (distance_m duration_s : Option ℚ) : Option ℚ :=
  match distance_m, duration_s with
  | some dm, some du =>
    if dm ≠ 0 ∧ du ≠ 0 ∧ dm > 0 then some (du / (dm / 1000)) else none
  | some _, none => none
  | none, some _ => none
  | none, none => none

/-- The (city_name, country, admin1) triple: "unknown" defaults, then the
guarded city lookup when a cities list was loaded. -/
noncomputable def extract_city (cities : Option (List City)) (start_lat start_lon : Option ℚ)
    (city_cache : GeoCache) (max_city_km : Option ℚ) :
    String × Option String × Option String :=
  match cities with
  | none => ("unknown", none, none)
  | some cs =>
    match (city_lookup start_lat start_lon cs city_cache max_city_km).1.1 with
    | some c => (strOr c.city "unknown", c.country, c.admin1)
    | none => ("unknown", none, none)

/-- The activity dict parse_fit_file returns once all guards have passed. -/
noncomputable def extract_activity (stem fname : String) (session : FieldMap)
    (records : List FieldMap) (cities : Option (List City)) (city_cache : GeoCache)
    (max_city_km : Option ℚ) (start_time : ℚ) : Activity :=
  let s := scanRecords records
  let distance_m := extract_distance_m session s
  let duration_s := extract_duration_s session s
  let start_lat := extract_start_lat session s
  let start_lon := extract_start_lon session s
  let cca := extract_city cities start_lat start_lon city_cache max_city_km
  { id := stem ++ "_" ++ toString (int_trunc start_time)
    sourceFile := fname
    sport := extract_sport session
    startTime := iso_local start_time
    startTimeUtc := some (iso_utc start_time)
    date := local_date start_time
    distanceM := distance_m
    durationS := duration_s
    paceSecPerKm := extract_pace distance_m duration_s
    avgHr := extract_avg_hr session s
    lat := start_lat
    lon := start_lon
    city := cca.1
    country := cca.2.1
    admin1 := cca.2.2 }

/-- parse_fit_file from the source, after the decode loop: the decode loop
itself (fitdecode) is the external black box, so the session field map (the
last session message, None when there was none) and the ordered record
field maps are taken as inputs.  stem and fname stand for path.stem and
path.name.  The Python function mutates the shared cache through
city_lookup; no claim concerns that mutation, so only the activity is
returned. -/
noncomputable def parse_fit_file (stem fname : String) (session? : Option FieldMap)
    (records : List FieldMap) (cities : Option (List City)) (city_cache : GeoCache)
    (max_city_km : Option ℚ) : Option Activity :=
  match session? with
  | none => none
  | some session =>
    if extract_sport session = "running" then
      match extract_start_time session with
      | none => none
      | some start_time =>
        some (extract_activity stem fname session records cities city_cache
          max_city_km start_time)
    else none

/-- Python string comparison: lexicographic on code points, modelled on the
character list of the string. -/
def pyStrLe (s t : String) : Prop := s.data ≤ t.data

/-- Strict Python string comparison. -/
def pyStrLt (s t : String) : Prop := s.data < t.data

instance (s t : String) : Decidable (pyStrLe s t) :=
  inferInstanceAs (Decidable (s.data ≤ t.data))

instance (s t : String) : Decidable (pyStrLt s t) :=
  inferInstanceAs (Decidable (s.data < t.data))

/-- The per-activity digest stored inside a daily entry. -/
structure DailyDigest where
  id : String
  startTime : String
  startTimeUtc : Option String
  distanceM : Option ℚ
  durationS : Option ℚ
  paceSecPerKm : Option ℚ
  avgHr : Option ℚ
deriving DecidableEq

/-- One output entry of build_daily. -/
structure DayEntry where
  date : String
  distanceM : ℚ
  durationS : ℚ
  activities : List DailyDigest
deriving DecidableEq

/-- Python `x or 0.0` on an optional float (the summing coercion in
build_daily). -/
def pyOrZero (a : Option ℚ) : ℚ :=
  match a with
  | some q => if q = 0 then 0 else q
  | none => 0

/-- The digest build_daily appends for one activity. -/
def digestOf (a : Activity) : DailyDigest :=
  { id := a.id
    startTime := a.startTime
    startTimeUtc := a.startTimeUtc
    distanceM := a.distanceM
    durationS := a.durationS
    paceSecPerKm := a.paceSecPerKm
    avgHr := a.avgHr }

/-- Folding one activity into its (existing) daily entry: add the sums and
append the digest. -/
def bumpDay (e : DayEntry) (a : Activity) : DayEntry :=
  { e with
    distanceM := e.distanceM + pyOrZero a.distanceM
    durationS := e.durationS + pyOrZero a.durationS
    activities := e.activities ++ [digestOf a] }

/-- The fresh entry build_daily creates the first time a date appears. -/
def blankDay (date : String) : DayEntry :=
  { date := date, distanceM := 0, durationS := 0, activities := [] }

/-- One step of the grouping loop of build_daily over the insertion-ordered
dict of daily entries: bump the entry of the activity's date, creating it at
the end when absent. -/
def addToDaily (daily : List DayEntry) (a : Activity) : List DayEntry :=
  match daily with
  | [] => [bumpDay (blankDay a.date) a]
  | e :: rest =>
    if e.date = a.date then bumpDay e a :: rest
    else e :: addToDaily rest a

/-- The sort key of a digest inside a day:
item.get("startTimeUtc") or item["startTime"] (an empty or missing UTC
string falls back to the local string — Python falsiness). -/
def digestSortKey (d : DailyDigest) : String :=
  match d.startTimeUtc with
  | some s => if s = "" then d.startTime else s
  | none => d.startTime

/-- The comparison list.sort uses inside one day. -/
def digestLe (x y : DailyDigest) : Prop := pyStrLe (digestSortKey x) (digestSortKey y)

instance (x y : DailyDigest) : Decidable (digestLe x y) :=
  inferInstanceAs (Decidable (pyStrLe (digestSortKey x) (digestSortKey y)))

instance : IsTotal DailyDigest digestLe :=
  ⟨fun x y => le_total (digestSortKey x).data (digestSortKey y).data⟩

instance : IsTrans DailyDigest digestLe :=
  ⟨fun _ _ _ hxy hyz => le_trans hxy hyz⟩

/-- The comparison list.sort uses on the daily list (key = date). -/
def dayLe (x y : DayEntry) : Prop := pyStrLe x.date y.date

instance (x y : DayEntry) : Decidable (dayLe x y) :=
  inferInstanceAs (Decidable (pyStrLe x.date y.date))

instance : IsTotal DayEntry dayLe := ⟨fun x y => le_total x.date.data y.date.data⟩

instance : IsTrans DayEntry dayLe := ⟨fun _ _ _ hxy hyz => le_trans hxy hyz⟩

/-- build_daily from the source: group by date in insertion order, then
sort the days by date and each day's digests by their sort key.  Python
list.sort is a stable sort; it is modelled by insertion sort, which is
stable and agrees with it on total preorders. -/
def build_daily (activities : List Activity) : List DayEntry :=
  let daily := activities.foldl addToDaily []
  let daily_list := List.insertionSort dayLe daily
  daily_list.map fun e =>
    { e with activities := List.insertionSort digestLe e.activities }

/-- The accumulating per-city record of build_city_stats (the dict entry:
city, country, admin1, runs, distanceM, durationS). -/
structure StatAcc where
  city : String
  country : Option String
  admin1 : Option String
  runs : ℕ
  distanceM : ℚ
  durationS : ℚ
deriving DecidableEq

/-- One output entry of build_city_stats. -/
structure CityStat where
  city : String
  country : Option String
  admin1 : Option String
  runs : ℕ
  distanceM : ℚ
  avgPaceSecPerKm : Option ℚ
deriving DecidableEq

/-- Python `activity.get("city") or "unknown"` on the always-present city
string of an activity. -/
def cityOrUnknown (s : String) : String := if s = "" then "unknown" else s

/-- Folding one activity into its per-city record: count the run, add
distance and duration when truthy. -/
def bumpStat (e : StatAcc) (a : Activity) : StatAcc :=
  let e1 := { e with runs := e.runs + 1 }
  let e2 :=
    match a.distanceM with
    | some q => if q ≠ 0 then { e1 with distanceM := e1.distanceM + q } else e1
    | none => e1
  match a.durationS with
  | some q => if q ≠ 0 then { e2 with durationS := e2.durationS + q } else e2
  | none => e2

/-- The fresh per-city record created the first time a key appears. -/
def blankStat (city : String) (a : Activity) : StatAcc :=
  { city := city, country := a.country, admin1 := a.admin1,
    runs := 0, distanceM := 0, durationS := 0 }

/-- One step of the grouping loop of build_city_stats over the
insertion-ordered dict keyed by (city, country, admin1). -/
def addToStats (stats : List StatAcc) (city : String) (a : Activity) : List StatAcc :=
  match stats with
  | [] => [bumpStat (blankStat city a) a]
  | e :: rest =>
    if e.city = city ∧ e.country = a.country ∧ e.admin1 = a.admin1 then
      bumpStat e a :: rest
    else e :: addToStats rest city a

/-- The grouping fold of build_city_stats: activities whose city is the
"unknown" sentinel (or falsy) are skipped. -/
def statsFold (activities : List Activity) : List StatAcc :=
  activities.foldl
    (fun st a =>
      let city := cityOrUnknown a.city
      if city = "unknown" then st else addToStats st city a)
    []

/-- The output record derived from one per-city accumulator. -/
def statOut (e : StatAcc) : CityStat :=
  { city := e.city, country := e.country, admin1 := e.admin1, runs := e.runs,
    distanceM := e.distanceM,
    avgPaceSecPerKm :=
      if e.distanceM > 0 ∧ e.durationS > 0
      then some (e.durationS / (e.distanceM / 1000)) else none }

/-- The descending-by-distance comparison of
results.sort(key=..., reverse=True). -/
def statGe (x y : CityStat) : Prop := y.distanceM ≤ x.distanceM

instance (x y : CityStat) : Decidable (statGe x y) :=
  inferInstanceAs (Decidable (y.distanceM ≤ x.distanceM))

instance : IsTotal CityStat statGe := ⟨fun x y => le_total y.distanceM x.distanceM⟩

instance : IsTrans CityStat statGe := ⟨fun _ _ _ hxy hyz => le_trans hyz hxy⟩

/-- build_city_stats from the source: group by (city, country, admin1)
excluding the "unknown" sentinel, derive the per-city average pace, and
sort descending by cumulative distance. -/
def build_city_stats (activities : List Activity) : List CityStat :=
  List.insertionSort statGe ((statsFold activities).map statOut)

/-- The pace invariant exactly as claim C1 states it, at one activity:
pace present iff distance and duration are present and distance positive,
and when present equal to duration / (distance / 1000). -/
def paceClaimAt (a : Activity) : Prop :=
  (a.paceSecPerKm.isSome ↔
    a.distanceM.isSome ∧ a.durationS.isSome ∧ 0 < a.distanceM.getD 0) ∧
  (a.paceSecPerKm = none ∨
    a.paceSecPerKm = some (a.durationS.getD 0 / (a.distanceM.getD 0 / 1000)))

/-- The distance-fallback property exactly as claim C2 states it, at one
extraction: the session's total_distance when numeric, and the last numeric
record distance whenever total_distance is absent or non-numeric. -/
def distanceClaimAt (session : FieldMap) (records : List FieldMap) (a : Activity) : Prop :=
  ((FieldMap.get session "total_distance").bind toFloat ≠ none →
    a.distanceM = (FieldMap.get session "total_distance").bind toFloat) ∧
  ((FieldMap.get session "total_distance").bind toFloat = none →
    lastRecordDistance records ≠ none →
    a.distanceM = lastRecordDistance records)

/-- The start-coordinate property exactly as claim C3 states it: the
normalized session pair when that pair is present, else the first valid
record pair, taken as a whole. -/
def startCoordsClaimAt (session : FieldMap) (records : List FieldMap) (a : Activity) : Prop :=
  ((normalize_lat_lon (FieldMap.get session "start_position_lat")).isSome ∧
      (normalize_lat_lon (FieldMap.get session "start_position_long")).isSome →
    a.lat = normalize_lat_lon (FieldMap.get session "start_position_lat") ∧
    a.lon = normalize_lat_lon (FieldMap.get session "start_position_long")) ∧
  (¬((normalize_lat_lon (FieldMap.get session "start_position_lat")).isSome ∧
      (normalize_lat_lon (FieldMap.get session "start_position_long")).isSome) →
    a.lat = (firstValidPair records).map Prod.fst ∧
    a.lon = (firstValidPair records).map Prod.snd)

/-- The within-day sort key as claim C8 states it: startTimeUtc, with
startTime as fallback only when the UTC string is absent. -/
def digestSpecKey (d : DailyDigest) : String := d.startTimeUtc.getD d.startTime

/-- The build_daily property exactly as claim C8 states it. -/
def dailyClaimProp (acts : List Activity) : Prop :=
  List.Pairwise (fun x y => pyStrLt x.date y.date) (build_daily acts) ∧
  (∀ e ∈ build_daily acts,
    e.distanceM =
      ((acts.filter fun a => a.date == e.date).map fun a => a.distanceM.getD 0).sum) ∧
  ∀ e ∈ build_daily acts,
    List.Pairwise (fun x y => pyStrLe (digestSpecKey x) (digestSpecKey y)) e.activities

/-- A running session whose timer reads zero: distance present and
positive, duration present and equal to 0. -/
def cexPaceSession : FieldMap :=
  [("sport", .str "running"), ("start_time", .time 100),
   ("total_distance", .num 5000), ("total_timer_time", .num 0)]

/-- A running session whose total_distance is a non-numeric value. -/
def cexDistSession : FieldMap :=
  [("sport", .str "running"), ("start_time", .time 0), ("total_distance", .nonnum)]

/-- A record carrying the cumulative distance 42. -/
def cexDistRecords : List FieldMap := [[("distance", .num 42)]]

/-- A running session with a start latitude but no start longitude. -/
def cexCoordSession : FieldMap :=
  [("sport", .str "running"), ("start_time", .time 0), ("start_position_lat", .num 10)]

/-- A record with a full valid position pair. -/
def cexCoordRecords : List FieldMap :=
  [[("position_lat", .num 20), ("position_long", .num 30)]]

/-- An activity whose startTimeUtc is the empty string (falsy, so the code
keys it by its local startTime "zzz"). -/
def cexDayActA : Activity :=
  { id := "A", sourceFile := "a.fit", sport := "running", startTime := "zzz",
    startTimeUtc := some "", date := "2024-01-01", distanceM := none,
    durationS := none, paceSecPerKm := none, avgHr := none, lat := none,
    lon := none, city := "unknown", country := none, admin1 := none }

/-- A same-day activity with a normal UTC key "a". -/
def cexDayActB : Activity :=
  { id := "B", sourceFile := "b.fit", sport := "running", startTime := "b",
    startTimeUtc := some "a", date := "2024-01-01", distanceM := none,
    durationS := none, paceSecPerKm := none, avgHr := none, lat := none,
    lon := none, city := "unknown", country := none, admin1 := none }

/-- The two-activity list on which claim C8's sort-key reading fails. -/
def cexDayActs : List Activity := [cexDayActA, cexDayActB]

/-- A sample city, placed at the coordinate origin. -/
def wCity : City :=
  { city := some "X", country := none, admin1 := none, lat := 0, lon := 0 }

/-- Looking up a date among the daily entries (the dict access by key).
Defined on insertion-ordered entry lists, whose dates are unique. -/
def dailyFind (daily : List DayEntry) (d : String) : Option DayEntry :=
  daily.find? fun e => e.date == d

instance (a : Activity) : Decidable (paceClaimAt a) := by
  unfold paceClaimAt; infer_instance

instance (session : FieldMap) (records : List FieldMap) (a : Activity) :
    Decidable (distanceClaimAt session records a) := by
  unfold distanceClaimAt; infer_instance

instance (session : FieldMap) (records : List FieldMap) (a : Activity) :
    Decidable (startCoordsClaimAt session records a) := by
  unfold startCoordsClaimAt; infer_instance

/-- C7: normalize_lat_lon treats every numeric value of magnitude above 180
as semicircles, converting it by v * 180 / 2^31, and passes every value
within [-180, 180] through unchanged; in particular 2147483648 (= 2^31)
normalizes to exactly 180 degrees and 45 is returned unchanged. -/
theorem normalize_lat_lon_spec :
    (∀ v : ℚ, normalize_lat_lon (some (PyVal.num v)) =
      some (if |v| > 180 then v * 180 / 2 ^ 31 else v)) ∧
    normalize_lat_lon (some (PyVal.num 2147483648)) = some 180 ∧
    normalize_lat_lon (some (PyVal.num 45)) = some 45 := by
  refine ⟨fun v => ?_, ?_, ?_⟩
  · by_cases h : |v| > 180 <;>
      simp [normalize_lat_lon, toFloat, semicircles_to_deg, h]
  · have h : |(2147483648 : ℚ)| > 180 := by norm_num
    simp [normalize_lat_lon, toFloat, semicircles_to_deg, h]
    norm_num
  · have habs : |(45 : ℚ)| = 45 := abs_of_nonneg (by norm_num)
    simp only [normalize_lat_lon, toFloat, habs]
    rw [if_neg (by norm_num : ¬((45 : ℚ) > 180))]

/-- The pace formula and its guard, characterized over the coerced optional
distance and duration. -/
theorem extract_pace_spec (dm du : Option ℚ) :
    ((extract_pace dm du).isSome ↔
      dm.isSome ∧ 0 < dm.getD 0 ∧ du.isSome ∧ du.getD 0 ≠ 0) ∧
    (extract_pace dm du = none ∨
      extract_pace dm du = some (du.getD 0 / (dm.getD 0 / 1000))) := by
  cases dm with
  | none => cases du <;> simp [extract_pace]
  | some dmv =>
    cases du with
    | none => simp [extract_pace]
    | some duv =>
      simp only [extract_pace, Option.getD_some, Option.isSome_some, true_and]
      by_cases h : dmv ≠ 0 ∧ duv ≠ 0 ∧ dmv > 0
      · rw [if_pos h]
        refine ⟨?_, Or.inr rfl⟩
        simp [h.2.1, h.2.2]
      · rw [if_neg h]
        refine ⟨?_, Or.inl rfl⟩
        simp only [Option.isSome_none, Bool.false_eq_true, false_iff, not_and]
        intro hdm hdu
        exact absurd ⟨ne_of_gt hdm, hdu, hdm⟩ h

/-- Elimination principle for the extractor: every activity parse_fit_file
returns is extract_activity at some session that passed the guards. -/
theorem parse_some (P : Activity → Prop) (stem fname : String)
    (session? : Option FieldMap) (records : List FieldMap)
    (cities : Option (List City)) (cache : GeoCache) (max_city_km : Option ℚ)
    (h : ∀ session start_time, session? = some session →
      P (extract_activity stem fname session records cities cache max_city_km start_time)) :
    ∀ a, parse_fit_file stem fname session? records cities cache max_city_km = some a →
      P a := by
  intro a heq
  cases session? with
  | none => exact Option.noConfusion heq
  | some session =>
    simp only [parse_fit_file] at heq
    by_cases hsp : extract_sport session = "running"
    · rw [if_pos hsp] at heq
      cases hst : extract_start_time session with
      | none => rw [hst] at heq; exact Option.noConfusion heq
      | some t =>
        rw [hst] at heq
        dsimp only at heq
        injection heq with h2
        exact h2 ▸ h session t rfl
    · rw [if_neg hsp] at heq
      exact Option.noConfusion heq

/-- C1 (amended): for every activity returned by extraction, paceSecPerKm
is present iff distanceM is present and positive and durationS is present
and nonzero — a present-but-zero duration yields no pace, because the code
guards with Python truthiness (distance_m and duration_s and
distance_m > 0); when present, the pace equals
durationS / (distanceM / 1000). -/
theorem pace_present_iff (stem fname : String) (session? : Option FieldMap)
    (records : List FieldMap) (cities : Option (List City)) (cache : GeoCache)
    (max_city_km : Option ℚ) :
    match parse_fit_file stem fname session? records cities cache max_city_km with
    | none => True
    | some a =>
      (a.paceSecPerKm.isSome ↔
        a.distanceM.isSome ∧ 0 < a.distanceM.getD 0 ∧
        a.durationS.isSome ∧ a.durationS.getD 0 ≠ 0) ∧
      (a.paceSecPerKm = none ∨
        a.paceSecPerKm = some (a.durationS.getD 0 / (a.distanceM.getD 0 / 1000))) := by
  cases hp : parse_fit_file stem fname session? records cities cache max_city_km with
  | none => trivial
  | some a =>
    exact parse_some
      (fun b =>
        (b.paceSecPerKm.isSome ↔
          b.distanceM.isSome ∧ 0 < b.distanceM.getD 0 ∧
          b.durationS.isSome ∧ b.durationS.getD 0 ≠ 0) ∧
        (b.paceSecPerKm = none ∨
          b.paceSecPerKm = some (b.durationS.getD 0 / (b.distanceM.getD 0 / 1000))))
      stem fname session? records cities cache max_city_km
      (fun session t _ => extract_pace_spec _ _) a hp

/-- Counterexample to C1 as stated: a running session with
total_distance 5000 and total_timer_time 0 yields an activity with
distanceM = 5000 > 0 and durationS = 0 both present, yet no paceSecPerKm,
because a zero duration is falsy in the guard. -/
theorem pace_claim_cex :
    (parse_fit_file "f" "f.fit" (some cexPaceSession) [] none [] none).map
      (fun a => decide (paceClaimAt a)) = some false := by decide

/-- The timestamp block leaves the distance tracker unchanged. -/
theorem scanTs_last_distance (s : ScanState) (r : FieldMap) :
    (scanTs s r).last_distance = s.last_distance := by
  unfold scanTs; split <;> rfl

/-- The distance block updates the tracker exactly when the record carries
a numeric distance. -/
theorem scanDist_last_distance (s : ScanState) (r : FieldMap) :
    (scanDist s r).last_distance =
      ((FieldMap.get r "distance").bind toFloat).or s.last_distance := by
  unfold scanDist
  cases h : FieldMap.get r "distance" with
  | none => rfl
  | some v => cases v <;> rfl

/-- The heart-rate block leaves the distance tracker unchanged. -/
theorem scanHr_last_distance (s : ScanState) (r : FieldMap) :
    (scanHr s r).last_distance = s.last_distance := by
  unfold scanHr
  cases h : FieldMap.get r "heart_rate" with
  | none => rfl
  | some v => cases v <;> rfl

/-- The position block leaves the distance tracker unchanged. -/
theorem scanPos_last_distance (s : ScanState) (r : FieldMap) :
    (scanPos s r).last_distance = s.last_distance := by
  unfold scanPos
  split
  · split <;> rfl
  · rfl

/-- One loop iteration updates the distance tracker exactly when the
record carries a numeric distance. -/
theorem scanRecord_last_distance (s : ScanState) (r : FieldMap) :
    (scanRecord s r).last_distance =
      ((FieldMap.get r "distance").bind toFloat).or s.last_distance := by
  unfold scanRecord
  rw [scanPos_last_distance, scanHr_last_distance, scanDist_last_distance,
    scanTs_last_distance]

/-- After the whole pass, the distance tracker holds the last numeric
record distance, falling back to whatever the initial state held. -/
theorem foldl_last_distance (records : List FieldMap) (s : ScanState) :
    (List.foldl scanRecord s records).last_distance =
      (lastRecordDistance records).or s.last_distance := by
  induction records generalizing s with
  | nil => rfl
  | cons r rs ih =>
    rw [List.foldl_cons, ih, scanRecord_last_distance]
    unfold lastRecordDistance
    rw [List.reverse_cons, List.findSome?_append]
    cases hfr : (FieldMap.get r "distance").bind toFloat <;>
      cases hrs : List.findSome?
        (fun x => (FieldMap.get x "distance").bind toFloat) rs.reverse <;>
      simp [List.findSome?_cons, List.findSome?_nil, hfr, hrs, Option.or]

/-- The scan of the records starts from the empty state, so its distance
tracker is exactly the last numeric record distance. -/
theorem scanRecords_last_distance (records : List FieldMap) :
    (scanRecords records).last_distance = lastRecordDistance records := by
  rw [scanRecords, foldl_last_distance]
  exact Option.or_none

/-- C2 (amended): distanceM is float(session.total_distance) whenever the
total_distance field is present — so a present but non-numeric value makes
distanceM absent without falling back to the records — and only when the
field is absent does distanceM equal the last numeric cumulative distance
observed in the records. -/
theorem distance_fallback (stem fname : String) (session : FieldMap)
    (records : List FieldMap) (cities : Option (List City)) (cache : GeoCache)
    (max_city_km : Option ℚ) :
    match parse_fit_file stem fname (some session) records cities cache max_city_km with
    | none => True
    | some a =>
      ((∃ v, FieldMap.get session "total_distance" = some v) →
        a.distanceM = (FieldMap.get session "total_distance").bind toFloat) ∧
      (FieldMap.get session "total_distance" = none →
        a.distanceM = lastRecordDistance records) := by
  cases hp : parse_fit_file stem fname (some session) records cities cache max_city_km with
  | none => trivial
  | some a =>
    refine parse_some
      (fun b =>
        ((∃ v, FieldMap.get session "total_distance" = some v) →
          b.distanceM = (FieldMap.get session "total_distance").bind toFloat) ∧
        (FieldMap.get session "total_distance" = none →
          b.distanceM = lastRecordDistance records))
      stem fname (some session) records cities cache max_city_km ?_ a hp
    intro session' t hs
    injection hs with hs
    subst hs
    dsimp only [extract_activity]
    constructor
    · rintro ⟨v, hv⟩
      show extract_distance_m session (scanRecords records) = _
      rw [extract_distance_m, hv]
      rfl
    · intro hnone
      show extract_distance_m session (scanRecords records) = _
      rw [extract_distance_m, hnone]
      exact scanRecords_last_distance records

/-- Counterexample to C2 as stated: a running session whose total_distance
is present but non-numeric, over a record with cumulative distance 42,
yields distanceM = None — the code does not fall back to the record
distance once the session field is present. -/
theorem distance_claim_cex :
    (parse_fit_file "f" "f.fit" (some cexDistSession) cexDistRecords none [] none).map
      (fun a => decide (distanceClaimAt cexDistSession cexDistRecords a)) =
      some false := by decide

/-- The timestamp block leaves the first-position tracker unchanged. -/
theorem scanTs_first (s : ScanState) (r : FieldMap) :
    (scanTs s r).first_lat = s.first_lat ∧ (scanTs s r).first_lon = s.first_lon := by
  unfold scanTs; split <;> exact ⟨rfl, rfl⟩

/-- The distance block leaves the first-position tracker unchanged. -/
theorem scanDist_first (s : ScanState) (r : FieldMap) :
    (scanDist s r).first_lat = s.first_lat ∧ (scanDist s r).first_lon = s.first_lon := by
  unfold scanDist
  cases h : FieldMap.get r "distance" with
  | none => exact ⟨rfl, rfl⟩
  | some v => cases v <;> exact ⟨rfl, rfl⟩

/-- The heart-rate block leaves the first-position tracker unchanged. -/
theorem scanHr_first (s : ScanState) (r : FieldMap) :
    (scanHr s r).first_lat = s.first_lat ∧ (scanHr s r).first_lon = s.first_lon := by
  unfold scanHr
  cases h : FieldMap.get r "heart_rate" with
  | none => exact ⟨rfl, rfl⟩
  | some v => cases v <;> exact ⟨rfl, rfl⟩

/-- Once both first coordinates are set, the position block changes
nothing. -/
theorem scanPos_stable (s : ScanState) (r : FieldMap) (a b : ℚ)
    (h1 : s.first_lat = some a) (h2 : s.first_lon = some b) :
    scanPos s r = s := by
  unfold scanPos
  rw [if_neg (by simp [h1, h2])]

/-- Once both first coordinates are set, a whole loop iteration preserves
them. -/
theorem scanRecord_first_stable (s : ScanState) (r : FieldMap) (a b : ℚ)
    (h1 : s.first_lat = some a) (h2 : s.first_lon = some b) :
    (scanRecord s r).first_lat = some a ∧ (scanRecord s r).first_lon = some b := by
  unfold scanRecord
  have h31 : (scanHr (scanDist (scanTs s r) r) r).first_lat = some a := by
    rw [(scanHr_first _ r).1, (scanDist_first _ r).1, (scanTs_first s r).1]; exact h1
  have h32 : (scanHr (scanDist (scanTs s r) r) r).first_lon = some b := by
    rw [(scanHr_first _ r).2, (scanDist_first _ r).2, (scanTs_first s r).2]; exact h2
  rw [scanPos_stable _ r a b h31 h32]
  exact ⟨h31, h32⟩

/-- Once both first coordinates are set, the rest of the pass preserves
them. -/
theorem foldl_first_stable (records : List FieldMap) : ∀ (s : ScanState) (a b : ℚ),
    s.first_lat = some a → s.first_lon = some b →
    (List.foldl scanRecord s records).first_lat = some a ∧
    (List.foldl scanRecord s records).first_lon = some b := by
  induction records with
  | nil => intro s a b h1 h2; exact ⟨h1, h2⟩
  | cons r rs ih =>
    intro s a b h1 h2
    rw [List.foldl_cons]
    obtain ⟨g1, g2⟩ := scanRecord_first_stable s r a b h1 h2
    exact ih _ a b g1 g2

/-- With the first coordinates still unset, one loop iteration stores
exactly the record's valid pair, jointly, when it has one. -/
theorem scanRecord_first_none (s : ScanState) (r : FieldMap)
    (h1 : s.first_lat = none) (h2 : s.first_lon = none) :
    ((scanRecord s r).first_lat, (scanRecord s r).first_lon) =
      match recordPair r with
      | some p => (some p.1, some p.2)
      | none => (none, none) := by
  unfold scanRecord
  have h31 : (scanHr (scanDist (scanTs s r) r) r).first_lat = none := by
    rw [(scanHr_first _ r).1, (scanDist_first _ r).1, (scanTs_first s r).1]; exact h1
  have h32 : (scanHr (scanDist (scanTs s r) r) r).first_lon = none := by
    rw [(scanHr_first _ r).2, (scanDist_first _ r).2, (scanTs_first s r).2]; exact h2
  unfold scanPos recordPair
  rw [if_pos (Or.inl h31)]
  cases hla : normalize_lat_lon (FieldMap.get r "position_lat") <;>
    cases hlo : normalize_lat_lon (FieldMap.get r "position_long") <;>
    simp [h31, h32]

/-- After the whole pass from an unset state, the first-position tracker
holds exactly the first valid record pair. -/
theorem foldl_first_pair (records : List FieldMap) : ∀ (s : ScanState),
    s.first_lat = none → s.first_lon = none →
    ((List.foldl scanRecord s records).first_lat,
      (List.foldl scanRecord s records).first_lon) =
      match firstValidPair records with
      | some p => (some p.1, some p.2)
      | none => (none, none) := by
  induction records with
  | nil => intro s h1 h2; simp [firstValidPair, List.findSome?_nil, h1, h2]
  | cons r rs ih =>
    intro s h1 h2
    rw [List.foldl_cons]
    have hrec := scanRecord_first_none s r h1 h2
    cases hp : recordPair r with
    | some p =>
      rw [hp] at hrec
      have g1 : (scanRecord s r).first_lat = some p.1 := congrArg Prod.fst hrec
      have g2 : (scanRecord s r).first_lon = some p.2 := congrArg Prod.snd hrec
      obtain ⟨f1, f2⟩ := foldl_first_stable rs (scanRecord s r) p.1 p.2 g1 g2
      rw [f1, f2, firstValidPair, List.findSome?_cons, hp]
    | none =>
      rw [hp] at hrec
      have g1 : (scanRecord s r).first_lat = none := congrArg Prod.fst hrec
      have g2 : (scanRecord s r).first_lon = none := congrArg Prod.snd hrec
      rw [firstValidPair, List.findSome?_cons, hp]
      exact ih (scanRecord s r) g1 g2

/-- The scanned first coordinates are the axes of the first valid record
pair (jointly set, so an axis is present exactly when the pair is). -/
theorem scanRecords_first (records : List FieldMap) :
    (scanRecords records).first_lat = (firstValidPair records).map Prod.fst ∧
    (scanRecords records).first_lon = (firstValidPair records).map Prod.snd := by
  have h := foldl_first_pair records {} rfl rfl
  rw [scanRecords]
  cases hp : firstValidPair records with
  | some p =>
    rw [hp] at h
    exact ⟨congrArg Prod.fst h, congrArg Prod.snd h⟩
  | none =>
    rw [hp] at h
    exact ⟨congrArg Prod.fst h, congrArg Prod.snd h⟩

/-- C3 (amended): the start coordinates fall back from the session position
to the first valid record pair per axis, not as a whole pair — each axis
independently takes the session value when it is present and nonzero
(Python truthiness), and that axis of the first valid record pair
otherwise. -/
theorem start_coords (stem fname : String) (session : FieldMap)
    (records : List FieldMap) (cities : Option (List City)) (cache : GeoCache)
    (max_city_km : Option ℚ) :
    match parse_fit_file stem fname (some session) records cities cache max_city_km with
    | none => True
    | some a =>
      a.lat = pyOrQ (normalize_lat_lon (FieldMap.get session "start_position_lat"))
        ((firstValidPair records).map Prod.fst) ∧
      a.lon = pyOrQ (normalize_lat_lon (FieldMap.get session "start_position_long"))
        ((firstValidPair records).map Prod.snd) := by
  cases hp : parse_fit_file stem fname (some session) records cities cache max_city_km with
  | none => trivial
  | some a =>
    refine parse_some
      (fun b =>
        b.lat = pyOrQ (normalize_lat_lon (FieldMap.get session "start_position_lat"))
          ((firstValidPair records).map Prod.fst) ∧
        b.lon = pyOrQ (normalize_lat_lon (FieldMap.get session "start_position_long"))
          ((firstValidPair records).map Prod.snd))
      stem fname (some session) records cities cache max_city_km ?_ a hp
    intro session' t hs
    injection hs with hs
    subst hs
    dsimp only [extract_activity, extract_start_lat, extract_start_lon]
    rw [(scanRecords_first records).1, (scanRecords_first records).2]
    exact ⟨rfl, rfl⟩

/-- Counterexample to C3 as stated: a session with a start latitude but no
start longitude, over a record at (20, 30), yields the mixed pair
(10, 30) — the session pair is not taken as a whole, each axis falls back
independently. -/
theorem start_coords_claim_cex :
    (parse_fit_file "f" "f.fit" (some cexCoordSession) cexCoordRecords none [] none).map
      (fun a => decide (startCoordsClaimAt cexCoordSession cexCoordRecords a)) =
      some false := by decide

/-- C10: every extracted activity has a non-empty city string — the matched
city's name when it is non-empty, and the sentinel "unknown" otherwise; in
particular a matched city record whose name field is missing or empty
yields "unknown". -/
theorem city_field_spec (stem fname : String) (session : FieldMap)
    (records : List FieldMap) (cities : Option (List City)) (cache : GeoCache)
    (max_city_km : Option ℚ) :
    match parse_fit_file stem fname (some session) records cities cache max_city_km with
    | none => True
    | some a =>
      a.city ≠ "" ∧
      (a.city = "unknown" ∨ ∃ cs c, cities = some cs ∧
        (city_lookup a.lat a.lon cs cache max_city_km).1.1 = some c ∧
        c.city = some a.city) ∧
      (∀ cs c, cities = some cs →
        (city_lookup a.lat a.lon cs cache max_city_km).1.1 = some c →
        (c.city = none ∨ c.city = some "") → a.city = "unknown") := by
  cases hp : parse_fit_file stem fname (some session) records cities cache max_city_km with
  | none => trivial
  | some a =>
    refine parse_some
      (fun b =>
        b.city ≠ "" ∧
        (b.city = "unknown" ∨ ∃ cs c, cities = some cs ∧
          (city_lookup b.lat b.lon cs cache max_city_km).1.1 = some c ∧
          c.city = some b.city) ∧
        (∀ cs c, cities = some cs →
          (city_lookup b.lat b.lon cs cache max_city_km).1.1 = some c →
          (c.city = none ∨ c.city = some "") → b.city = "unknown"))
      stem fname (some session) records cities cache max_city_km ?_ a hp
    intro session' t hs
    injection hs with hs
    subst hs
    dsimp only [extract_activity, extract_city]
    cases cities with
    | none =>
      refine ⟨?_, Or.inl rfl, ?_⟩
      · show ("unknown" : String) ≠ ""
        decide
      · intro cs c hcs
        exact Option.noConfusion hcs
    | some cs =>
      dsimp only
      cases hlk : (city_lookup (extract_start_lat session (scanRecords records))
          (extract_start_lon session (scanRecords records)) cs cache max_city_km).1.1 with
      | none =>
        refine ⟨?_, Or.inl rfl, ?_⟩
        · show ("unknown" : String) ≠ ""
          decide
        intro cs' c hcs hlk'
        injection hcs with hcs
        subst hcs
        rw [hlk] at hlk'
        exact Option.noConfusion hlk'
      | some c =>
        cases hcc : c.city with
        | none =>
          refine ⟨?_, Or.inl ?_, ?_⟩
          · show strOr c.city "unknown" ≠ ""
            rw [hcc]; decide
          · show strOr c.city "unknown" = "unknown"
            rw [hcc]; rfl
          · intro cs' c' hcs hlk' hx
            show strOr c.city "unknown" = "unknown"
            rw [hcc]; rfl
        | some nm =>
          by_cases hse : nm = ""
          · subst hse
            refine ⟨?_, Or.inl ?_, ?_⟩
            · show strOr c.city "unknown" ≠ ""
              rw [hcc]; decide
            · show strOr c.city "unknown" = "unknown"
              rw [hcc]; rfl
            · intro cs' c' hcs hlk' hx
              show strOr c.city "unknown" = "unknown"
              rw [hcc]; rfl
          · have hun : strOr c.city "unknown" = nm := by
              rw [hcc]; exact if_neg hse
            refine ⟨?_, Or.inr ⟨cs, c, rfl, ?_, ?_⟩, ?_⟩
            · show strOr c.city "unknown" ≠ ""
              rw [hun]; exact hse
            · exact hlk
            · show c.city = some (strOr c.city "unknown")
              rw [hun, hcc]
            · intro cs' c' hcs hlk' hx
              injection hcs with hcs
              subst hcs
              rw [hlk] at hlk'
              injection hlk' with hlk'
              subst hlk'
              rcases hx with hx | hx
              · rw [hcc] at hx; exact Option.noConfusion hx
              · rw [hcc] at hx
                injection hx with hx
                exact absurd hx hse

/-- Invariant of the best-so-far scan: starting from a candidate best, the
scan returns some city and distance, the distance is a lower bound of the
candidate and of every remaining city's distance, and the winner is either
the unbeaten candidate or the first strictly-improving city of the list. -/
theorem nearestScan_go (lat lon : ℚ) (cs : List City) : ∀ (b : City) (bk : ℝ),
    ∃ c k, nearestScan lat lon cs (some b) (some bk) = (some c, some k) ∧
      k ≤ bk ∧ (∀ x ∈ cs, k ≤ haversine_km lat lon x.lat x.lon) ∧
      ((c = b ∧ k = bk) ∨
        (∃ pre post, cs = pre ++ c :: post ∧ k = haversine_km lat lon c.lat c.lon ∧
          k < bk ∧ ∀ y ∈ pre, k < haversine_km lat lon y.lat y.lon)) := by
  induction cs with
  | nil =>
    intro b bk
    exact ⟨b, bk, rfl, le_refl bk, by simp, Or.inl ⟨rfl, rfl⟩⟩
  | cons c0 rest ih =>
    intro b bk
    by_cases hd : haversine_km lat lon c0.lat c0.lon < bk
    · obtain ⟨c, k, heq, hk, hall, hcase⟩ := ih c0 (haversine_km lat lon c0.lat c0.lon)
      refine ⟨c, k, ?_, le_of_lt (lt_of_le_of_lt hk hd), ?_, ?_⟩
      · show nearestScan lat lon (c0 :: rest) (some b) (some bk) = _
        unfold nearestScan
        dsimp only
        rw [if_pos hd]
        exact heq
      · intro x hx
        rcases List.mem_cons.mp hx with hx | hx
        · subst hx; exact hk
        · exact hall x hx
      · rcases hcase with ⟨hc, hkd⟩ | ⟨pre, post, hrest, hkd, hklt, hpre⟩
        · subst hc
          exact Or.inr ⟨[], rest, rfl, hkd, hkd ▸ hd, by simp⟩
        · refine Or.inr ⟨c0 :: pre, post, by rw [hrest]; rfl, hkd,
            lt_trans hklt hd, ?_⟩
          intro y hy
          rcases List.mem_cons.mp hy with hy | hy
          · subst hy; exact hklt
          · exact hpre y hy
    · obtain ⟨c, k, heq, hk, hall, hcase⟩ := ih b bk
      refine ⟨c, k, ?_, hk, ?_, ?_⟩
      · show nearestScan lat lon (c0 :: rest) (some b) (some bk) = _
        unfold nearestScan
        dsimp only
        rw [if_neg hd]
        exact heq
      · intro x hx
        rcases List.mem_cons.mp hx with hx | hx
        · subst hx; exact le_trans hk (not_lt.mp hd)
        · exact hall x hx
      · rcases hcase with ⟨hc, hkd⟩ | ⟨pre, post, hrest, hkd, hklt, hpre⟩
        · exact Or.inl ⟨hc, hkd⟩
        · refine Or.inr ⟨c0 :: pre, post, by rw [hrest]; rfl, hkd,
            hklt, ?_⟩
          intro y hy
          rcases List.mem_cons.mp hy with hy | hy
          · subst hy; exact lt_of_lt_of_le hklt (not_lt.mp hd)
          · exact hpre y hy

/-- The scan over a non-empty city list returns the first city attaining
the minimum haversine distance, together with that distance. -/
theorem nearestScan_spec (lat lon : ℚ) (cities : List City) (h : cities ≠ []) :
    ∃ c pre post,
      cities = pre ++ c :: post ∧
      (∀ x ∈ cities, haversine_km lat lon c.lat c.lon ≤ haversine_km lat lon x.lat x.lon) ∧
      (∀ y ∈ pre, haversine_km lat lon c.lat c.lon < haversine_km lat lon y.lat y.lon) ∧
      nearestScan lat lon cities none none =
        (some c, some (haversine_km lat lon c.lat c.lon)) := by
  cases cities with
  | nil => exact absurd rfl h
  | cons c0 rest =>
    have hstep : nearestScan lat lon (c0 :: rest) none none =
        nearestScan lat lon rest (some c0) (some (haversine_km lat lon c0.lat c0.lon)) := by
      conv_lhs => unfold nearestScan
    obtain ⟨c, k, heq, hk, hall, hcase⟩ :=
      nearestScan_go lat lon rest c0 (haversine_km lat lon c0.lat c0.lon)
    rcases hcase with ⟨hc, hkd⟩ | ⟨pre, post, hrest, hkd, hklt, hpre⟩
    · subst hc
      refine ⟨c, [], rest, rfl, ?_, by simp, ?_⟩
      · intro x hx
        rcases List.mem_cons.mp hx with hx | hx
        · subst hx; exact le_refl _
        · exact hkd ▸ hall x hx
      · rw [hstep, heq, hkd]
    · subst hkd
      refine ⟨c, c0 :: pre, post, by rw [hrest]; rfl, ?_, ?_, ?_⟩
      · intro x hx
        rcases List.mem_cons.mp hx with hx | hx
        · subst hx; exact hk
        · exact hall x hx
      · intro y hy
        rcases List.mem_cons.mp hy with hy | hy
        · subst hy; exact hklt
        · exact hpre y hy
      · rw [hstep, heq]

/-- C4: on a non-empty city list the resolver selects a city of minimum
haversine distance (Earth radius 6371 km), breaking ties by input order —
the chosen city is strictly closer than every city before it; with no
radius bound it returns exactly that city and distance, and with any
radius bound, whenever a city is returned at all it is that same first
minimizer with its distance. -/
theorem find_nearest_city_min (lat lon : ℚ) (cities : List City)
    (max_km : Option ℚ) (h : cities ≠ []) :
    ∃ c pre post,
      cities = pre ++ c :: post ∧
      (∀ x ∈ cities, haversine_km lat lon c.lat c.lon ≤ haversine_km lat lon x.lat x.lon) ∧
      (∀ y ∈ pre, haversine_km lat lon c.lat c.lon < haversine_km lat lon y.lat y.lon) ∧
      find_nearest_city lat lon cities none =
        (some c, some (haversine_km lat lon c.lat c.lon)) ∧
      ∀ r d, find_nearest_city lat lon cities max_km = (some r, d) →
        r = c ∧ d = some (haversine_km lat lon c.lat c.lon) := by
  obtain ⟨c, pre, post, hsplit, hmin, hfirst, hscan⟩ := nearestScan_spec lat lon cities h
  refine ⟨c, pre, post, hsplit, hmin, hfirst, ?_, ?_⟩
  · unfold find_nearest_city
    rw [hscan]
  · intro r d heq
    unfold find_nearest_city at heq
    rw [hscan] at heq
    cases max_km with
    | none =>
      dsimp only at heq
      have h1 := congrArg Prod.fst heq
      have h2 := congrArg Prod.snd heq
      simp only at h1 h2
      exact ⟨(Option.some_inj.mp h1).symm, h2.symm⟩
    | some m =>
      dsimp only at heq
      by_cases hgt : haversine_km lat lon c.lat c.lon > (m : ℝ)
      · rw [if_pos hgt] at heq
        exact absurd (congrArg Prod.fst heq) (by simp)
      · rw [if_neg hgt] at heq
        have h1 := congrArg Prod.fst heq
        have h2 := congrArg Prod.snd heq
        simp only at h1 h2
        exact ⟨(Option.some_inj.mp h1).symm, h2.symm⟩

/-- Witness for C4 at the one-city list. -/
theorem find_nearest_city_min_witness :
    (([wCity] : List City) ≠ []) ∧
    (∃ c pre post,
      ([wCity] : List City) = pre ++ c :: post ∧
      (∀ x ∈ ([wCity] : List City),
        haversine_km 0 0 c.lat c.lon ≤ haversine_km 0 0 x.lat x.lon) ∧
      (∀ y ∈ pre, haversine_km 0 0 c.lat c.lon < haversine_km 0 0 y.lat y.lon) ∧
      find_nearest_city 0 0 [wCity] none =
        (some c, some (haversine_km 0 0 c.lat c.lon)) ∧
      ∀ r d, find_nearest_city 0 0 [wCity] (some 100) = (some r, d) →
        r = c ∧ d = some (haversine_km 0 0 c.lat c.lon)) :=
  ⟨by simp, find_nearest_city_min 0 0 [wCity] (some 100) (by simp)⟩

/-- The argument of the complex number 1 is zero, so atan2(0, 1) = 0. -/
theorem atan2_zero_one : atan2 0 1 = 0 := by
  unfold atan2
  have h : (⟨1, 0⟩ : ℂ) = 1 := by
    apply Complex.ext <;> simp
  rw [h, Complex.arg_one]

/-- The haversine distance from a point to itself is zero. -/
theorem haversine_self (lat lon : ℚ) : haversine_km lat lon lat lon = 0 := by
  unfold haversine_km
  have hr : radians (lat - lat) = 0 := by unfold radians; simp
  have hr2 : radians (lon - lon) = 0 := by unfold radians; simp
  rw [hr, hr2]
  simp [Real.sin_zero, Real.sqrt_zero, Real.sqrt_one, atan2_zero_one]

/-- C5: when every loaded city lies strictly farther than maxDistanceKm,
the resolver returns (none, minimum distance) — the minimum is still
reported on rejection — while with no cities loaded it returns
(none, none), so the two cases are distinguishable. -/
theorem find_nearest_city_reject (lat lon : ℚ) (cities : List City) (m : ℚ)
    (h : cities ≠ [])
    (hfar : ∀ x ∈ cities, (m : ℝ) < haversine_km lat lon x.lat x.lon) :
    (∃ c ∈ cities,
      find_nearest_city lat lon cities (some m) =
        (none, some (haversine_km lat lon c.lat c.lon)) ∧
      ∀ x ∈ cities, haversine_km lat lon c.lat c.lon ≤ haversine_km lat lon x.lat x.lon) ∧
    ∀ (lat' lon' : ℚ) (max' : Option ℚ),
      find_nearest_city lat' lon' [] max' = (none, none) := by
  constructor
  · obtain ⟨c, pre, post, hsplit, hmin, hfirst, hscan⟩ := nearestScan_spec lat lon cities h
    have hc : c ∈ cities := by
      rw [hsplit]
      exact List.mem_append_right pre (List.mem_cons_self c post)
    refine ⟨c, hc, ?_, hmin⟩
    unfold find_nearest_city
    rw [hscan]
    dsimp only
    rw [if_pos (hfar c hc)]
  · intro lat' lon' max'
    rfl

/-- Witness for C5: one city at the origin, queried from the origin with a
negative radius, is rejected with its distance 0 still reported; the empty
list yields (none, none). -/
theorem find_nearest_city_reject_witness :
    (([wCity] : List City) ≠ []) ∧
    (∀ x ∈ ([wCity] : List City),
      (((-1 : ℚ) : ℝ)) < haversine_km 0 0 x.lat x.lon) ∧
    ((∃ c ∈ ([wCity] : List City),
      find_nearest_city 0 0 [wCity] (some (-1)) =
        (none, some (haversine_km 0 0 c.lat c.lon)) ∧
      ∀ x ∈ ([wCity] : List City),
        haversine_km 0 0 c.lat c.lon ≤ haversine_km 0 0 x.lat x.lon) ∧
    ∀ (lat' lon' : ℚ) (max' : Option ℚ),
      find_nearest_city lat' lon' [] max' = (none, none)) := by
  have hfar : ∀ x ∈ ([wCity] : List City),
      (((-1 : ℚ) : ℝ)) < haversine_km 0 0 x.lat x.lon := by
    intro x hx
    rw [List.mem_singleton] at hx
    subst hx
    have h0 : haversine_km 0 0 wCity.lat wCity.lon = 0 := haversine_self 0 0
    rw [h0]
    norm_num
  exact ⟨by simp, hfar, find_nearest_city_reject 0 0 [wCity] (-1) (by simp) hfar⟩

/-- C6: two lookups whose coordinates agree after rounding to 3 decimals
share one cache slot — the second lookup returns exactly the pair the
first one produced and leaves the cache untouched, whatever city list and
radius the second one is given (so no new search happens), including when
the cached result is a negative one. -/
theorem city_lookup_cache (la1 lo1 la2 lo2 : ℚ) (cities cities2 : List City)
    (cache : GeoCache) (m1 m2 : Option ℚ)
    (h1 : round3 la1 = round3 la2) (h2 : round3 lo1 = round3 lo2) :
    city_lookup (some la2) (some lo2) cities2
        (city_lookup (some la1) (some lo1) cities cache m1).2 m2 =
      ((city_lookup (some la1) (some lo1) cities cache m1).1,
        (city_lookup (some la1) (some lo1) cities cache m1).2) := by
  unfold city_lookup
  dsimp only
  rw [← h1, ← h2]
  cases hc : cacheFind cache (round3 la1, round3 lo1) with
  | some r =>
    dsimp only
    rw [hc]
  | none =>
    dsimp only
    have hhead : cacheFind
        ((((round3 la1, round3 lo1)), find_nearest_city la1 lo1 cities m1) :: cache)
        (round3 la1, round3 lo1) = some (find_nearest_city la1 lo1 cities m1) := by
      unfold cacheFind
      rw [if_pos rfl]
    rw [hhead]

/-- Witness for C6: coordinates 2 and 20001/10000 = 2.0001 agree after
rounding to 3 decimals, so the second lookup replays the first (negative)
result from the cache. -/
theorem city_lookup_cache_witness :
    round3 2 = round3 (20001 / 10000) ∧
    round3 3 = round3 3 ∧
    city_lookup (some (20001 / 10000)) (some 3) []
        (city_lookup (some 2) (some 3) [] [] none).2 none =
      ((city_lookup (some 2) (some 3) [] [] none).1,
        (city_lookup (some 2) (some 3) [] [] none).2) := by
  have h1 : round3 2 = round3 (20001 / 10000) := by
    unfold round3
    have e1 : round ((2 : ℚ) * 1000) = 2000 := by
      rw [round_eq, Int.floor_eq_iff] <;> norm_num
    have e2 : round ((20001 : ℚ) / 10000 * 1000) = 2000 := by
      rw [round_eq, Int.floor_eq_iff] <;> norm_num
    rw [e1, e2]
  exact ⟨h1, rfl, city_lookup_cache 2 3 (20001 / 10000) 3 [] [] [] none none h1 rfl⟩

/-- Bumping a per-city record does not change its key fields. -/
theorem bumpStat_city (e : StatAcc) (a : Activity) : (bumpStat e a).city = e.city := by
  unfold bumpStat
  cases a.distanceM <;> cases a.durationS <;> dsimp only <;>
    first
    | (split_ifs <;> rfl)
    | rfl

/-- Bumping a per-city record counts exactly one run. -/
theorem bumpStat_runs (e : StatAcc) (a : Activity) : (bumpStat e a).runs = e.runs + 1 := by
  unfold bumpStat
  cases a.distanceM <;> cases a.durationS <;> dsimp only <;>
    first
    | (split_ifs <;> rfl)
    | rfl

/-- Every city name in the grouped stats is either the inserted key or a
key already present. -/
theorem addToStats_city_prop (P : String → Prop) :
    ∀ (stats : List StatAcc) (city : String) (a : Activity), P city →
      (∀ e ∈ stats, P e.city) → ∀ e ∈ addToStats stats city a, P e.city := by
  intro stats
  induction stats with
  | nil =>
    intro city a hP _ e he
    rw [addToStats] at he
    rw [List.mem_singleton] at he
    subst he
    rw [bumpStat_city]
    exact hP
  | cons e0 rest ih =>
    intro city a hP hstats e he
    rw [addToStats] at he
    split at he
    · rcases List.mem_cons.mp he with he | he
      · rw [he, bumpStat_city]
        exact hstats e0 (List.mem_cons_self e0 rest)
      · exact hstats e (List.mem_cons_of_mem e0 he)
    · rcases List.mem_cons.mp he with he | he
      · rw [he]
        exact hstats e0 (List.mem_cons_self e0 rest)
      · exact ih city a hP (fun x hx => hstats x (List.mem_cons_of_mem e0 hx)) e he

/-- Inserting one activity into the grouped stats adds exactly one run. -/
theorem addToStats_runs (stats : List StatAcc) (city : String) (a : Activity) :
    ((addToStats stats city a).map (fun e => e.runs)).sum =
      (stats.map (fun e => e.runs)).sum + 1 := by
  induction stats with
  | nil => simp [addToStats, bumpStat_runs, blankStat]
  | cons e0 rest ih =>
    rw [addToStats]
    split
    · simp [bumpStat_runs]
      omega
    · simp [ih]
      omega

/-- Over the whole grouping fold the run total grows by at most one per
activity. -/
theorem statsFold_runs_le (activities : List Activity) : ∀ (stats : List StatAcc),
    ((List.foldl
        (fun st a =>
          let city := cityOrUnknown a.city
          if city = "unknown" then st else addToStats st city a)
        stats activities).map (fun e => e.runs)).sum ≤
      (stats.map (fun e => e.runs)).sum + activities.length := by
  induction activities with
  | nil => intro stats; simp
  | cons a rest ih =>
    intro stats
    rw [List.foldl_cons]
    dsimp only
    split
    · calc ((List.foldl _ stats rest).map (fun e => e.runs)).sum
          ≤ (stats.map (fun e => e.runs)).sum + rest.length := ih stats
        _ ≤ (stats.map (fun e => e.runs)).sum + (a :: rest).length := by
            simp [List.length_cons]
    · calc ((List.foldl _ (addToStats stats (cityOrUnknown a.city) a) rest).map
              (fun e => e.runs)).sum
          ≤ ((addToStats stats (cityOrUnknown a.city) a).map (fun e => e.runs)).sum
              + rest.length := ih _
        _ = (stats.map (fun e => e.runs)).sum + 1 + rest.length := by
            rw [addToStats_runs]
        _ = (stats.map (fun e => e.runs)).sum + (a :: rest).length := by
            simp [List.length_cons]
            omega

/-- No grouped entry carries the "unknown" sentinel. -/
theorem statsFold_no_unknown (activities : List Activity) : ∀ (stats : List StatAcc),
    (∀ e ∈ stats, e.city ≠ "unknown") →
    ∀ e ∈ List.foldl
        (fun st a =>
          let city := cityOrUnknown a.city
          if city = "unknown" then st else addToStats st city a)
        stats activities, e.city ≠ "unknown" := by
  induction activities with
  | nil => intro stats h e he; exact h e he
  | cons a rest ih =>
    intro stats h e he
    rw [List.foldl_cons] at he
    dsimp only at he
    split at he
    · exact ih stats h e he
    · next hne =>
      refine ih _ ?_ e he
      exact addToStats_city_prop (fun s => s ≠ "unknown") stats
        (cityOrUnknown a.city) a hne h

/-- C9: the city statistics never contain the "unknown" sentinel, and the
runs they count sum to at most the number of input activities. -/
theorem build_city_stats_spec (activities : List Activity) :
    (∀ e ∈ build_city_stats activities, e.city ≠ "unknown") ∧
    ((build_city_stats activities).map (fun e => e.runs)).sum ≤
      activities.length := by
  have hperm : (build_city_stats activities).Perm
      ((statsFold activities).map statOut) :=
    List.perm_insertionSort statGe _
  constructor
  · intro e he
    have he2 : e ∈ (statsFold activities).map statOut := hperm.mem_iff.mp he
    obtain ⟨e', he', heq⟩ := List.mem_map.mp he2
    have : e'.city ≠ "unknown" :=
      statsFold_no_unknown activities [] (by simp) e' he'
    rw [← heq]
    exact this
  · have hsum : ((build_city_stats activities).map (fun e => e.runs)).sum =
        (((statsFold activities).map statOut).map (fun e => e.runs)).sum :=
      (hperm.map (fun e => e.runs)).sum_eq
    rw [hsum, List.map_map]
    have : ((statsFold activities).map (fun e => (statOut e).runs)).sum =
        ((statsFold activities).map (fun e => e.runs)).sum := by
      rfl
    rw [Function.comp_def]
    rw [this]
    have h := statsFold_runs_le activities []
    simpa [statsFold] using h

/-- Bumping a daily entry preserves its date. -/
theorem bumpDay_date (e : DayEntry) (a : Activity) : (bumpDay e a).date = e.date := rfl

/-- Inserting one activity either reuses an existing date or appends its
date at the end. -/
theorem addToDaily_dates (daily : List DayEntry) (a : Activity) :
    (addToDaily daily a).map (fun e => e.date) =
      if a.date ∈ daily.map (fun e => e.date) then daily.map (fun e => e.date)
      else daily.map (fun e => e.date) ++ [a.date] := by
  induction daily with
  | nil => simp [addToDaily, bumpDay, blankDay]
  | cons e rest ih =>
    rw [addToDaily]
    split
    · next he =>
      rw [List.map_cons, List.map_cons, bumpDay_date, if_pos]
      rw [← he]
      exact List.mem_cons_self _ _
    · next he =>
      rw [List.map_cons, List.map_cons, ih]
      by_cases hm : a.date ∈ rest.map (fun e => e.date)
      · rw [if_pos hm, if_pos (List.mem_cons_of_mem _ hm)]
      · rw [if_neg hm, if_neg ?_]
        · rfl
        · intro hmem
          rcases List.mem_cons.mp hmem with h | h
          · exact he h.symm
          · exact hm h

/-- The grouping fold keeps the dates of the daily entries distinct. -/
theorem foldl_daily_dates_nodup (activities : List Activity) : ∀ (daily : List DayEntry),
    (daily.map (fun e => e.date)).Nodup →
    ((List.foldl addToDaily daily activities).map (fun e => e.date)).Nodup := by
  induction activities with
  | nil => intro daily h; exact h
  | cons a rest ih =>
    intro daily h
    rw [List.foldl_cons]
    refine ih _ ?_
    rw [addToDaily_dates]
    split
    · exact h
    · next hm => simp [List.nodup_append, h, hm]

/-- On entry lists with distinct dates, every member is found under its own
date. -/
theorem dailyFind_of_mem (daily : List DayEntry)
    (hnd : (daily.map (fun e => e.date)).Nodup) :
    ∀ e ∈ daily, dailyFind daily e.date = some e := by
  induction daily with
  | nil => intro e he; exact absurd he (List.not_mem_nil e)
  | cons e0 rest ih =>
    intro e he
    rw [List.map_cons, List.nodup_cons] at hnd
    rcases List.mem_cons.mp he with he | he
    · rw [he]
      unfold dailyFind
      rw [List.find?_cons_of_pos]
      simp
    · have hne : e0.date ≠ e.date := by
        intro hcontra
        exact hnd.1 (hcontra ▸ List.mem_map_of_mem (fun x => x.date) he)
      unfold dailyFind
      rw [List.find?_cons_of_neg]
      · exact ih hnd.2 e he
      · simp [hne]

/-- The dict update of build_daily, seen through lookup: inserting an
activity bumps the entry under its date (creating it when absent) and
leaves every other date's entry alone. -/
theorem dailyFind_addToDaily (daily : List DayEntry) (a : Activity) (d : String) :
    dailyFind (addToDaily daily a) d =
      if a.date = d then
        some (match dailyFind daily d with
              | some e => bumpDay e a
              | none => bumpDay (blankDay a.date) a)
      else dailyFind daily d := by
  induction daily with
  | nil =>
    by_cases had : a.date = d
    · rw [if_pos had]
      unfold addToDaily dailyFind
      rw [List.find?_cons_of_pos]
      · rfl
      · show ((a.date : String) == d) = true
        exact beq_iff_eq.mpr had
    · rw [if_neg had]
      unfold addToDaily dailyFind
      rw [List.find?_cons_of_neg]
      show ¬((a.date : String) == d) = true
      simp [had]
  | cons e rest ih =>
    rw [addToDaily]
    split
    · next hea =>
      by_cases had : a.date = d
      · rw [if_pos had]
        have hfound : dailyFind (e :: rest) d = some e := by
          unfold dailyFind
          rw [List.find?_cons_of_pos]
          exact beq_iff_eq.mpr (hea.trans had)
        rw [hfound]
        unfold dailyFind
        rw [List.find?_cons_of_pos]
        show ((bumpDay e a).date == d) = true
        rw [bumpDay_date]
        exact beq_iff_eq.mpr (hea.trans had)
      · rw [if_neg had]
        have hne : ¬(e.date = d) := fun hc => had (hea ▸ hc)
        unfold dailyFind
        rw [List.find?_cons_of_neg, List.find?_cons_of_neg]
        · simp [hne]
        · show ¬((bumpDay e a).date == d) = true
          rw [bumpDay_date]
          simp [hne]
    · next hea =>
      by_cases hed : e.date = d
      · have had : ¬(a.date = d) := fun hc => hea (hed.trans hc.symm)
        rw [if_neg had]
        unfold dailyFind
        rw [List.find?_cons_of_pos, List.find?_cons_of_pos]
        · exact beq_iff_eq.mpr hed
        · exact beq_iff_eq.mpr hed
      · unfold dailyFind
        rw [List.find?_cons_of_neg, List.find?_cons_of_neg]
        · have := ih
          unfold dailyFind at this
          rw [this]
        · simp [hed]
        · simp [hed]

/-- The whole grouping fold, seen through lookup: the entry under a date is
the bump-fold of the activities carrying that date (over the initial entry
when one existed, over a fresh one otherwise). -/
theorem dailyFind_foldl (activities : List Activity) : ∀ (daily : List DayEntry) (d : String),
    dailyFind (List.foldl addToDaily daily activities) d =
      match dailyFind daily d with
      | some e => some (List.foldl bumpDay e (activities.filter fun a => a.date == d))
      | none =>
        match activities.filter (fun a => a.date == d) with
        | [] => none
        | b :: bs => some (List.foldl bumpDay (blankDay d) (b :: bs)) := by
  induction activities with
  | nil =>
    intro daily d
    cases h : dailyFind daily d <;> simp [List.filter_nil, h]
  | cons a rest ih =>
    intro daily d
    rw [List.foldl_cons, ih (addToDaily daily a) d, dailyFind_addToDaily]
    by_cases had : a.date = d
    · rw [if_pos had, List.filter_cons, if_pos (beq_iff_eq.mpr had)]
      cases h : dailyFind daily d with
      | some e =>
        dsimp only
        rw [List.foldl_cons]
      | none =>
        dsimp only
        rw [List.foldl_cons, had]
    · rw [if_neg had, List.filter_cons, if_neg (by simp [had])]

/-- Folding activities into a daily entry adds their distances to it. -/
theorem foldl_bumpDay_distanceM (as : List Activity) : ∀ (e : DayEntry),
    (List.foldl bumpDay e as).distanceM =
      e.distanceM + (as.map fun a => pyOrZero a.distanceM).sum := by
  induction as with
  | nil => intro e; simp
  | cons a rest ih =>
    intro e
    rw [List.foldl_cons, ih]
    rw [show (bumpDay e a).distanceM = e.distanceM + pyOrZero a.distanceM from rfl]
    rw [List.map_cons, List.sum_cons, add_assoc]

/-- The Python coercion x or 0.0 agrees with taking the value with
default 0. -/
theorem pyOrZero_eq_getD (o : Option ℚ) : pyOrZero o = o.getD 0 := by
  cases o with
  | none => rfl
  | some q =>
    by_cases h : q = 0
    · simp [pyOrZero, h]
    · simp [pyOrZero, h]

/-- Every output entry of build_daily is a sorted copy of one grouped
entry. -/
theorem build_daily_mem (acts : List Activity) (e : DayEntry)
    (he : e ∈ build_daily acts) :
    ∃ e' ∈ List.foldl addToDaily [] acts,
      e.date = e'.date ∧ e.distanceM = e'.distanceM ∧
      e.activities = List.insertionSort digestLe e'.activities := by
  unfold build_daily at he
  obtain ⟨e', he', heq⟩ := List.mem_map.mp he
  refine ⟨e', (List.perm_insertionSort dayLe _).mem_iff.mp he', ?_, ?_, ?_⟩ <;>
    rw [← heq]

/-- C8 (amended): build_daily emits strictly increasing, duplicate-free
dates; each day's distanceM is the sum of the distances (absent counted as
zero) of the activities sharing that date; and each day's activity list is
sorted ascending by the key the code uses — startTimeUtc with startTime as
fallback when the UTC string is absent or empty (Python falsiness), not
only when it is absent. -/
theorem build_daily_spec (activities : List Activity) :
    List.Pairwise (fun x y => pyStrLt x.date y.date) (build_daily activities) ∧
    (∀ e ∈ build_daily activities,
      e.distanceM =
        ((activities.filter fun a => a.date == e.date).map
          fun a => a.distanceM.getD 0).sum) ∧
    ∀ e ∈ build_daily activities,
      List.Pairwise (fun x y => pyStrLe (digestSortKey x) (digestSortKey y))
        e.activities := by
  have hnd : ((List.foldl addToDaily [] activities).map (fun e => e.date)).Nodup :=
    foldl_daily_dates_nodup activities [] (by simp)
  refine ⟨?_, ?_, ?_⟩
  · have hsorted : List.Sorted dayLe
        (List.insertionSort dayLe (List.foldl addToDaily [] activities)) :=
      List.sorted_insertionSort dayLe _
    have hperm := List.perm_insertionSort dayLe (List.foldl addToDaily [] activities)
    have hnd2 : ((List.insertionSort dayLe
        (List.foldl addToDaily [] activities)).map (fun e => e.date)).Nodup :=
      ((hperm.map (fun e => e.date)).nodup_iff).mpr hnd
    have hne : List.Pairwise (fun x y : DayEntry => x.date ≠ y.date)
        (List.insertionSort dayLe (List.foldl addToDaily [] activities)) :=
      List.pairwise_map.mp hnd2
    unfold build_daily
    refine List.pairwise_map.mpr ?_
    refine (hsorted.and hne).imp ?_
    intro x y hxy
    have hdata : x.date.data ≠ y.date.data := fun hc => hxy.2 (String.ext hc)
    exact lt_of_le_of_ne hxy.1 hdata
  · intro e he
    obtain ⟨e', he', hdate, hdist, -⟩ := build_daily_mem activities e he
    have hfind : dailyFind (List.foldl addToDaily [] activities) e'.date = some e' :=
      dailyFind_of_mem _ hnd e' he'
    rw [dailyFind_foldl activities [] e'.date] at hfind
    dsimp only [dailyFind, List.find?_nil] at hfind
    rw [hdate, hdist]
    cases hf : activities.filter (fun a => a.date == e'.date) with
    | nil => rw [hf] at hfind; exact Option.noConfusion hfind
    | cons b bs =>
      rw [hf] at hfind
      injection hfind with hfind
      rw [← hfind, foldl_bumpDay_distanceM]
      rw [show (blankDay e'.date).distanceM = 0 from rfl, zero_add]
      simp [pyOrZero_eq_getD]
  · intro e he
    obtain ⟨e', he', -, -, hact⟩ := build_daily_mem activities e he
    rw [hact]
    exact (List.sorted_insertionSort digestLe e'.activities).imp (fun h => h)

/-- Counterexample to C8 as stated: two same-day activities, one with the
empty string as startTimeUtc (key "zzz" by falsy fallback) and one with
UTC key "a", come out ordered [B, A] — sorted by the code's falsy-fallback
key but not by the claim's absent-only fallback key, whose values are
"a", "". -/
theorem daily_claim_cex : ¬ dailyClaimProp cexDayActs := by
  intro h
  obtain ⟨-, -, h3⟩ := h
  have hm : (build_daily cexDayActs).map (fun e => e.activities) =
      [[digestOf cexDayActB, digestOf cexDayActA]] := by decide
  have hmem : [digestOf cexDayActB, digestOf cexDayActA] ∈
      (build_daily cexDayActs).map (fun e => e.activities) := by
    rw [hm]
    exact List.mem_singleton_self _
  obtain ⟨e, he, hact⟩ := List.mem_map.mp hmem
  have hp := h3 e he
  rw [hact] at hp
  have hle := (List.pairwise_cons.mp hp).1 (digestOf cexDayActA)
    (List.mem_singleton_self _)
  exact absurd hle (by decide)
